import Mathlib

/-!
Verification of the catalog bootstrap and metadata-mutation engine
(`dbms/src/Databases/DatabaseOrdinary.cpp`).

The development shallowly embeds the relevant functions of the source file:

* `applyMetadataPatch` — the field-replacement block of `DatabaseOrdinary::alterTable`
  (lines 255–275 of the source);
* `alterTable` — the whole read / parse / patch / format / atomic-replace pipeline;
* `discover` — the metadata-file discovery callback of
  `DatabaseOrdinary::loadStoredObjects` together with the `std::map` keyed by
  filename (`mapInsert` models `std::map` insertion into a strictly
  key-sorted association list);
* `tryAttachTable` / `tryAttachDictionary` — the error-wrapping helpers;
* `loadStoredObjects` — the phase structure of bootstrap as an event trace;
* `logAboutProgress` — the progress-emission predicate.

External collaborators (query parser and formatter, `createTableFromAST`,
storage `startup`, the dictionary loader) are passed in as function
parameters, mirroring their role as opaque capabilities in the source.
-/

namespace DB

open scoped List

set_option maxRecDepth 4000

/-- An opaque AST node handle (the source manipulates `ASTPtr`; the identity of
the pointed-to tree is all the verified properties depend on). -/
abbrev Ast := Nat

/-- A storage pointer handle (`StoragePtr` in the source). -/
abbrev StoragePtr := Nat

/-- Model of `ASTColumns` inside `ASTCreateQuery`: the `columns` child is
always present in a parsed `CREATE` of a table, while `indices` and
`constraints` children may be absent. -/
structure ASTColumnsClause where
  columns : Ast
  indices : Option Ast
  constraints : Option Ast
deriving DecidableEq

/-- Model of `ASTStorage`: each child pointer may be null. -/
structure ASTStorageClause where
  order_by : Option Ast
  primary_key : Option Ast
  ttl_table : Option Ast
  settings : Option Ast
deriving DecidableEq

/-- Model of `ASTCreateQuery` as consumed by this translation unit: the
dictionary flag, the object name (`query.table`), the columns clause and the
storage clause. -/
structure ASTCreateQuery where
  is_dictionary : Bool
  table : String
  columns_list : ASTColumnsClause
  storage : ASTStorageClause
deriving DecidableEq

/-- Model of `StorageInMemoryMetadata`, the alter patch. The source formats
`columns`, `indices` and `constraints` through `InterpreterCreateQuery` into
fresh AST nodes before replacement; the model stores those formatted nodes
directly. The four remaining fields are nullable AST pointers exactly as in
the source. -/
structure StorageInMemoryMetadata where
  columns : Ast
  indices : Ast
  constraints : Ast
  order_by_ast : Option Ast
  primary_key_ast : Option Ast
  ttl_for_table_ast : Option Ast
  settings_ast : Option Ast
deriving DecidableEq

/-- The field-replacement block of `DatabaseOrdinary::alterTable`
(source lines 255–275), statement by statement:

* `columns_list->replace(columns, new_columns)` — unconditional;
* `columns_list->setOrReplace(indices, new_indices)` and likewise for
  `constraints` — unconditional, setting the child even when absent;
* `if (metadata.order_by_ast && storage_ast.order_by) set(order_by, ...)`;
* `if (metadata.primary_key_ast) set(primary_key, ...)`;
* `if (metadata.ttl_for_table_ast) set(ttl_table, ...)`;
* `if (metadata.settings_ast) set(settings, ...)`. -/
def applyMetadataPatch (q : ASTCreateQuery) (metadata : StorageInMemoryMetadata) :
    ASTCreateQuery :=
  let cl : ASTColumnsClause :=
    { columns := metadata.columns
      indices := some metadata.indices
      constraints := some metadata.constraints }
  let st1 : ASTStorageClause :=
    if metadata.order_by_ast.isSome && q.storage.order_by.isSome
    then { q.storage with order_by := metadata.order_by_ast }
    else q.storage
  let st2 : ASTStorageClause :=
    if metadata.primary_key_ast.isSome
    then { st1 with primary_key := metadata.primary_key_ast }
    else st1
  let st3 : ASTStorageClause :=
    if metadata.ttl_for_table_ast.isSome
    then { st2 with ttl_table := metadata.ttl_for_table_ast }
    else st2
  let st4 : ASTStorageClause :=
    if metadata.settings_ast.isSome
    then { st3 with settings := metadata.settings_ast }
    else st3
  { q with columns_list := cl, storage := st4 }

/-- A filesystem is a partial map from paths to file contents. -/
abbrev FileSystem := String → Option String

/-- Write (create or truncate) a file. -/
def fsWrite (fs : FileSystem) (path content : String) : FileSystem :=
  fun p => if p = path then some content else fs p

/-- Remove a file. -/
def fsErase (fs : FileSystem) (path : String) : FileSystem :=
  fun p => if p = path then none else fs p

/-- Open with `O_WRONLY | O_CREAT | O_EXCL` (source line 280): the creation
fails when the path already exists, otherwise the file is created with the
given content. -/
def createExclusive (fs : FileSystem) (path content : String) : Option FileSystem :=
  if (fs path).isSome then none else some (fsWrite fs path content)

/-- Errors surfaced by the alter pipeline. `fileAlreadyExists` is the
`O_EXCL` open failure — the concurrent-mutation signal; `renameFailure` is a
failed `Poco::File::renameTo`. -/
inductive AlterError where
  | fileNotFound (path : String)
  | parseFailure (path : String)
  | fileAlreadyExists (path : String)
  | renameFailure (path : String)
deriving DecidableEq

/-- `DatabaseOrdinary::alterTable` (source lines 234–298).

The query parser and the definition formatter are external capabilities and
are passed as functions; `renameSucceeds` is the fault parameter deciding
whether `Poco::File::renameTo` succeeds. The result is the filesystem after
the call together with the propagated error, if any.

Steps, mirroring the source: read the definition file; parse it; apply the
field replacement; format back to text; create `<path>.tmp` exclusively and
write the new text (optionally fsynced — a durability knob with no effect on
contents); rename the temp file over the original, and on rename failure
remove the temp file and rethrow. -/
def alterTable (parse : String → Option ASTCreateQuery)
    (format : ASTCreateQuery → String)
    (fsyncMetadata : Bool) (renameSucceeds : Bool)
    (fs : FileSystem) (tableMetadataPath : String)
    (metadata : StorageInMemoryMetadata) : FileSystem × Option AlterError :=
  let tmpPath := tableMetadataPath ++ ".tmp"
  match fs tableMetadataPath with
  | none => (fs, some (AlterError.fileNotFound tableMetadataPath))
  | some statement =>
    match parse statement with
    | none => (fs, some (AlterError.parseFailure tableMetadataPath))
    | some ast =>
      let newStatement := format (applyMetadataPatch ast metadata)
      match createExclusive fs tmpPath newStatement with
      | none => (fs, some (AlterError.fileAlreadyExists tmpPath))
      | some fs1 =>
        let _ := fsyncMetadata
        if renameSucceeds then
          (fsWrite (fsErase fs1 tmpPath) tableMetadataPath newStatement, none)
        else
          (fsErase fs1 tmpPath, some (AlterError.renameFailure tableMetadataPath))

/-- The ASCII single-quote character used by the error messages of the
source (written this way to keep the embedding free of quote literals). -/
def sq : String := String.singleton (Char.ofNat 39)

/-- Model of `DB::Exception`: the rendered message and the error code. The
codes below are the `extern` error-code constants referenced by the
translation unit, modelled as distinct naturals. -/
structure Exc where
  message : String
  code : Nat
deriving DecidableEq

/-- Error code `CANNOT_CREATE_TABLE_FROM_METADATA`. -/
def CANNOT_CREATE_TABLE_FROM_METADATA : Nat := 231

/-- Error code `CANNOT_CREATE_DICTIONARY_FROM_METADATA`. -/
def CANNOT_CREATE_DICTIONARY_FROM_METADATA : Nat := 487

/-- Error code `CANNOT_PARSE_TEXT`. -/
def CANNOT_PARSE_TEXT : Nat := 6

/-- `tryAttachTable` (source lines 55–79): call `createTableFromAST` and
register the result in the database; on a thrown `Exception` rethrow it
wrapped with the table name, the serialized query text and the message of
the cause, under code `CANNOT_CREATE_TABLE_FROM_METADATA`.
`createTableFromAST2` stands for the combined construction-and-attach body
of the `try` block; `serialize` is the external `serializeAST`. -/
def tryAttachTable (serialize : ASTCreateQuery → String)
    (createTableFromAST2 : ASTCreateQuery → Except Exc (String × StoragePtr))
    (q : ASTCreateQuery) : Except Exc (String × StoragePtr) :=
  match createTableFromAST2 q with
  | Except.ok r => Except.ok r
  | Except.error e =>
      Except.error
        { message := "Cannot attach table " ++ sq ++ q.table ++ sq ++ " from query "
            ++ serialize q ++ ". Error: " ++ e.message
          code := CANNOT_CREATE_TABLE_FROM_METADATA }

/-- `tryAttachDictionary` (source lines 82–100): call
`database.attachDictionary(query.table, context)`; on a thrown `Exception`
rethrow it wrapped with the dictionary name, the serialized query text and
the message of the cause, under code
`CANNOT_CREATE_DICTIONARY_FROM_METADATA`. -/
def tryAttachDictionary (serialize : ASTCreateQuery → String)
    (attachDictionary2 : String → Option Exc)
    (q : ASTCreateQuery) : Except Exc Unit :=
  match attachDictionary2 q.table with
  | none => Except.ok ()
  | some e =>
      Except.error
        { message := "Cannot create dictionary " ++ sq ++ q.table ++ sq ++ " from query "
            ++ serialize q ++ ". Error: " ++ e.message
          code := CANNOT_CREATE_DICTIONARY_FROM_METADATA }

/-- The discovery map `FileNames = std::map<std::string, ASTPtr>`, embedded
as an association list whose keys are kept strictly sorted. -/
abbrev FileMap := List (String × ASTCreateQuery)

/-- Lexicographic comparison of character lists — the order of
`std::string::operator<` used by the `std::map` keyed on filenames. -/
def charListLt : List Char → List Char → Bool
  | _, [] => false
  | [], _ :: _ => true
  | a :: as, b :: bs => if a < b then true else if b < a then false else charListLt as bs

/-- Lexicographic filename comparison. -/
def strLt (a b : String) : Bool := charListLt a.data b.data

/-- `charListLt` is transitive. -/
theorem charListLt_trans : ∀ (a b c : List Char), charListLt a b = true →
    charListLt b c = true → charListLt a c = true := by
  intro a
  induction a with
  | nil =>
    intro b c h1 h2
    cases c with
    | nil => cases b <;> simp [charListLt] at h2
    | cons c cs => rfl
  | cons a as ih =>
    intro b c h1 h2
    cases b with
    | nil => simp [charListLt] at h1
    | cons b bs =>
      cases c with
      | nil => simp [charListLt] at h2
      | cons c cs =>
        simp only [charListLt] at h1 h2 ⊢
        by_cases hab : a < b
        · by_cases hbc : b < c
          · rw [if_pos (lt_trans hab hbc)]
          · rw [if_neg hbc] at h2
            by_cases hcb : c < b
            · rw [if_pos hcb] at h2; exact absurd h2 (by simp)
            · have hbceq : b = c := le_antisymm (not_lt.mp hcb) (not_lt.mp hbc)
              rw [if_pos (hbceq ▸ hab)]
        · rw [if_neg hab] at h1
          by_cases hba : b < a
          · rw [if_pos hba] at h1; exact absurd h1 (by simp)
          · rw [if_neg hba] at h1
            have habeq : a = b := le_antisymm (not_lt.mp hba) (not_lt.mp hab)
            by_cases hbc : b < c
            · rw [if_pos (habeq ▸ hbc)]
            · rw [if_neg hbc] at h2
              by_cases hcb : c < b
              · rw [if_pos hcb] at h2; exact absurd h2 (by simp)
              · rw [if_neg hcb] at h2
                rw [if_neg (habeq ▸ hbc), if_neg (habeq ▸ hcb)]
                exact ih bs cs h1 h2

/-- `charListLt` is asymmetric. -/
theorem charListLt_asymm : ∀ (a b : List Char), charListLt a b = true →
    charListLt b a = false := by
  intro a
  induction a with
  | nil =>
    intro b h
    cases b with
    | nil => simp [charListLt] at h
    | cons b bs => rfl
  | cons a as ih =>
    intro b h
    cases b with
    | nil => simp [charListLt] at h
    | cons b bs =>
      simp only [charListLt] at h ⊢
      by_cases hab : a < b
      · rw [if_neg (lt_asymm hab), if_pos hab]
      · rw [if_neg hab] at h
        by_cases hba : b < a
        · rw [if_pos hba] at h; exact absurd h (by simp)
        · rw [if_neg hba] at h
          rw [if_neg hba, if_neg hab]
          exact ih bs h

/-- Two character lists neither of which precedes the other are equal. -/
theorem charListLt_eq_of_not_not : ∀ (a b : List Char), charListLt a b = false →
    charListLt b a = false → a = b := by
  intro a
  induction a with
  | nil =>
    intro b h1 _
    cases b with
    | nil => rfl
    | cons b bs => exact absurd h1 (by simp [charListLt])
  | cons a as ih =>
    intro b h1 h2
    cases b with
    | nil => exact absurd h2 (by simp [charListLt])
    | cons b bs =>
      simp only [charListLt] at h1 h2
      by_cases hab : a < b
      · rw [if_pos hab] at h1; exact absurd h1 (by simp)
      · by_cases hba : b < a
        · rw [if_pos hba] at h2; exact absurd h2 (by simp)
        · rw [if_neg hab, if_neg hba] at h1
          rw [if_neg hba, if_neg hab] at h2
          have heq : a = b := le_antisymm (not_lt.mp hba) (not_lt.mp hab)
          rw [heq, ih bs h1 h2]

/-- `strLt` is transitive. -/
theorem strLt_trans (a b c : String) (h1 : strLt a b = true) (h2 : strLt b c = true) :
    strLt a c = true :=
  charListLt_trans a.data b.data c.data h1 h2

/-- `strLt` is asymmetric. -/
theorem strLt_asymm (a b : String) (h : strLt a b = true) : strLt b a = false :=
  charListLt_asymm a.data b.data h

/-- Two strings neither of which precedes the other are equal. -/
theorem strLt_eq_of_not_not (a b : String) (h1 : strLt a b = false)
    (h2 : strLt b a = false) : a = b := by
  obtain ⟨da⟩ := a
  obtain ⟨db⟩ := b
  exact congrArg String.mk (charListLt_eq_of_not_not da db h1 h2)

/-- If `a` does not precede `b` and they differ, then `b` precedes `a`. -/
theorem strLt_of_not_of_ne (a b : String) (h1 : strLt a b = false) (h2 : a ≠ b) :
    strLt b a = true := by
  cases hba : strLt b a with
  | true => rfl
  | false => exact absurd (strLt_eq_of_not_not a b h1 hba) h2

/-- Insertion into the key-sorted association list, the behaviour of
`file_names[file_name] = ast` on a `std::map`: keep strict key order,
overwrite the value on an existing key. -/
def mapInsert (k : String) (v : ASTCreateQuery) : FileMap → FileMap
  | [] => [(k, v)]
  | (k2, v2) :: rest =>
    if strLt k k2 then (k, v) :: (k2, v2) :: rest
    else if k = k2 then (k, v) :: rest
    else (k2, v2) :: mapInsert k v rest

/-- What the external `parseQueryFromMetadata` produced for one metadata
file: a thrown parse exception (carrying its message), a null AST (for an
empty or effectively empty file), or a parsed `ASTCreateQuery`. -/
abbrev ParseOutcome := Except String (Option ASTCreateQuery)

/-- The body of the `iterateMetadataFiles` callback of
`DatabaseOrdinary::loadStoredObjects` (source lines 134–153), folded over
the filenames in the order the filesystem enumeration delivers them:
a parse exception is wrapped (filename and cause message, code
`CANNOT_PARSE_TEXT`) and aborts the iteration; a null AST is skipped; a
parsed AST is stored in the map and, when it is a dictionary, counted. -/
def discoverAux (metadataPath : String) (acc : FileMap × Nat) :
    List (String × ParseOutcome) → Except Exc (FileMap × Nat)
  | [] => Except.ok acc
  | (fileName, outcome) :: rest =>
    match outcome with
    | Except.error cause =>
        Except.error
          { message := "Cannot parse definition from metadata file "
              ++ (metadataPath ++ fileName) ++ ". Error: " ++ cause
            code := CANNOT_PARSE_TEXT }
    | Except.ok none => discoverAux metadataPath acc rest
    | Except.ok (some ast) =>
        discoverAux metadataPath
          (mapInsert fileName ast acc.1, acc.2 + (if ast.is_dictionary then 1 else 0)) rest

/-- The whole discovery pass: empty map and zero dictionary count, then the
callback over every enumerated file. Returns the filename-keyed map and
`total_dictionaries`. -/
def discover (metadataPath : String) (files : List (String × ParseOutcome)) :
    Except Exc (FileMap × Nat) :=
  discoverAux metadataPath ([], 0) files

/-- The table entries of the discovery map, in map (hence lexicographic
filename) order — the submission order of the table-attach units. -/
def tableQueries (m : FileMap) : List (String × ASTCreateQuery) :=
  m.filter (fun p => !p.2.is_dictionary)

/-- The dictionary entries of the discovery map, in map order — the
sequential processing order of the dictionary phase. -/
def dictQueries (m : FileMap) : List (String × ASTCreateQuery) :=
  m.filter (fun p => p.2.is_dictionary)

/-- Observable completion events of one bootstrap run, named by the metadata
filename of the processed object. -/
inductive Event where
  | attachTableOk (fileName : String)
  | attachTableFailed (fileName : String)
  | startupTableOk (tableName : String)
  | startupTableFailed (tableName : String)
  | registerDictionaryRepository
  | attachDictionaryOk (fileName : String)
  | attachDictionaryFailed (fileName : String)
deriving DecidableEq

/-- The external bootstrap collaborators of `loadStoredObjects`:
the metadata directory path, the external `serializeAST`, the table
construction body, the storage `startup` call, and the dictionary-loader
registration. The enumeration of metadata files is a separate argument of
`loadStoredObjects`. -/
structure BootstrapEnv where
  metadataPath : String
  serialize : ASTCreateQuery → String
  createTableFromAST2 : ASTCreateQuery → Except Exc (String × StoragePtr)
  startupTable : StoragePtr → Option Exc
  attachDictionary2 : String → Option Exc

/-- Modelled from the spec: the `ThreadPool` used by bootstrap (its
implementation is outside this translation unit). Per the spec, the pool
executes every submitted unit to completion even when one fails, collecting
one result per unit in submission order. Here: the per-unit results of the
table-attach phase, in submission order. -/
def attachResults (env : BootstrapEnv) (tq : List (String × ASTCreateQuery)) :
    List (String × Except Exc (String × StoragePtr)) :=
  tq.map (fun p => (p.1, tryAttachTable env.serialize env.createTableFromAST2 p.2))

/-- Modelled from the spec: `ThreadPool::wait` rethrow policy — after all
units finish, the first failure in submission order is the one propagated. -/
def firstError {α : Type} : List (String × Except Exc α) → Option Exc
  | [] => none
  | (_, Except.error e) :: _ => some e
  | (_, Except.ok _) :: rest => firstError rest

/-- Modelled from the spec: the same first-failure-in-submission-order
policy for the startup phase, whose unit results are `Option Exc`. -/
def firstFailure : List (String × Option Exc) → Option Exc
  | [] => none
  | (_, some e) :: _ => some e
  | (_, none) :: rest => firstFailure rest

/-- The tables successfully attached by the attach phase: name and storage
handle per successful unit (the contents of `tables` that
`startupTables` iterates, for a database that was empty before bootstrap). -/
def attachedTables (rs : List (String × Except Exc (String × StoragePtr))) :
    List (String × StoragePtr) :=
  rs.filterMap (fun p => p.2.toOption)

/-- The completion event of one table-attach unit. -/
def attachEvent (env : BootstrapEnv) (p : String × ASTCreateQuery) : Event :=
  match tryAttachTable env.serialize env.createTableFromAST2 p.2 with
  | Except.ok _ => Event.attachTableOk p.1
  | Except.error _ => Event.attachTableFailed p.1

/-- The completion event of one table-startup unit. -/
def startupEvent (env : BootstrapEnv) (p : String × StoragePtr) : Event :=
  match env.startupTable p.2 with
  | none => Event.startupTableOk p.1
  | some _ => Event.startupTableFailed p.1

/-- The sequential dictionary-attach loop of `loadStoredObjects` (source
lines 189–200): one `tryAttachDictionary` per dictionary entry, in map
order, each completing before the next begins; the first thrown wrapper
exception aborts the remaining sequence. Returns the emitted events and the
propagated error, if any. -/
def attachDictionariesSeq (env : BootstrapEnv) :
    List (String × ASTCreateQuery) → List Event × Option Exc
  | [] => ([], none)
  | (fileName, q) :: rest =>
    match tryAttachDictionary env.serialize env.attachDictionary2 q with
    | Except.error e => ([Event.attachDictionaryFailed fileName], some e)
    | Except.ok _ =>
        let r := attachDictionariesSeq env rest
        (Event.attachDictionaryOk fileName :: r.1, r.2)

/-- `DatabaseOrdinary::loadStoredObjects` (source lines 121–201) together
with `DatabaseOrdinary::startupTables` (lines 204–232), as an event-trace
semantics.

`attachOrder` and `startupOrder` are the completion schedules of the two
concurrent pool phases (any interleaving the pool may produce — theorems
quantify over them); submission order is the map order. Phases, exactly as
sequenced by the source: discovery (aborting on a parse failure before any
attach); concurrent table attach, then `pool.wait()` which rethrows the
first failure; concurrent table startup, then the wait with the same
policy; registration of the database as a dictionary configuration
repository; the sequential dictionary loop. -/
def loadStoredObjects (env : BootstrapEnv) (files : List (String × ParseOutcome))
    (attachOrder : List (String × ASTCreateQuery))
    (startupOrder : List (String × StoragePtr)) : List Event × Option Exc :=
  match discover env.metadataPath files with
  | Except.error e => ([], some e)
  | Except.ok (m, _totalDictionaries) =>
    match firstError (attachResults env (tableQueries m)) with
    | some e => (attachOrder.map (attachEvent env), some e)
    | none =>
      match firstFailure ((attachedTables (attachResults env (tableQueries m))).map
          (fun p => (p.1, env.startupTable p.2))) with
      | some e =>
          (attachOrder.map (attachEvent env) ++ startupOrder.map (startupEvent env), some e)
      | none =>
          (attachOrder.map (attachEvent env) ++ startupOrder.map (startupEvent env) ++
              Event.registerDictionaryRepository :: (attachDictionariesSeq env (dictQueries m)).1,
            (attachDictionariesSeq env (dictQueries m)).2)

/-- `PRINT_MESSAGE_EACH_N_OBJECTS` (source line 48). -/
def PRINT_MESSAGE_EACH_N_OBJECTS : Nat := 256

/-- `PRINT_MESSAGE_EACH_N_SECONDS` (source line 49). -/
def PRINT_MESSAGE_EACH_N_SECONDS : Nat := 5

/-- The emission condition of `logAboutProgress` (source lines 103–110):
a message is logged when the processed counter is a multiple of 256 or when
the shared stopwatch shows at least 5 elapsed seconds since its last
restart (`AtomicStopwatch::compareAndRestart`); the stopwatch is restarted
whenever a message is logged. -/
def logAboutProgress (processed : Nat) (elapsedSeconds : Nat) : Bool :=
  (processed % PRINT_MESSAGE_EACH_N_OBJECTS == 0)
    || decide (PRINT_MESSAGE_EACH_N_SECONDS ≤ elapsedSeconds)

/-- One per-phase progress run: `dt i` is the time taken until the
completion of the `i`-th object (1-based) since the previous completion;
the accumulator is the stopwatch reading, reset on every emission. Returns
the list of counter values at which a message was emitted, processing `n`
more objects after `processed`. -/
def emissionsFrom (dt : Nat → Nat) (elapsed processed : Nat) : Nat → List Nat
  | 0 => []
  | n + 1 =>
    let p := processed + 1
    let e := elapsed + dt p
    if logAboutProgress p e then p :: emissionsFrom dt 0 p n
    else emissionsFrom dt e p n

/-- The counter values at which a phase over `total` objects emits progress
messages, for the timing profile `dt`. -/
def emittedAt (dt : Nat → Nat) (total : Nat) : List Nat :=
  emissionsFrom dt 0 0 total

/-! Concrete fixtures used by the witness theorems. -/

/-- A concrete table descriptor: no ordering key, a primary key, no TTL,
no settings. -/
def exTableQuery : ASTCreateQuery :=
  { is_dictionary := false
    table := "t"
    columns_list := { columns := 1, indices := none, constraints := none }
    storage := { order_by := none, primary_key := some 2, ttl_table := none, settings := none } }

/-- A concrete alter patch: supplies an ordering key, no primary key, a TTL,
no settings. -/
def exPatch : StorageInMemoryMetadata :=
  { columns := 10
    indices := 11
    constraints := 12
    order_by_ast := some 13
    primary_key_ast := none
    ttl_for_table_ast := some 14
    settings_ast := none }

/-- A concrete filesystem holding one table definition file. -/
def exFS : FileSystem := fun p => if p = "metadata/t.sql" then some "CREATE t" else none

/-- A concrete filesystem where a concurrent alter already created the
temporary file. -/
def exFSWithTmp : FileSystem :=
  fun p =>
    if p = "metadata/t.sql" then some "CREATE t"
    else if p = "metadata/t.sql.tmp" then some "half" else none

/-- A concrete external parser for the witnesses. -/
def exParse : String → Option ASTCreateQuery := fun _ => some exTableQuery

/-- A concrete external formatter for the witnesses. -/
def exFormat : ASTCreateQuery → String := fun _ => "CREATE t NEW"

/-- C1: after `applyMetadataPatch`, columns, indices and constraints hold
exactly the (formatted) patch values; the ordering key is replaced only when
both patch and existing descriptor have one and is never newly introduced;
primary key, table TTL and settings are replaced exactly when the patch
supplies them and are left unchanged otherwise. -/
theorem C1_alter_field_replacement (q : ASTCreateQuery) (md : StorageInMemoryMetadata) :
    (applyMetadataPatch q md).columns_list.columns = md.columns ∧
    (applyMetadataPatch q md).columns_list.indices = some md.indices ∧
    (applyMetadataPatch q md).columns_list.constraints = some md.constraints ∧
    (q.storage.order_by = none → (applyMetadataPatch q md).storage.order_by = none) ∧
    (md.order_by_ast = none →
      (applyMetadataPatch q md).storage.order_by = q.storage.order_by) ∧
    (∀ a b, md.order_by_ast = some a → q.storage.order_by = some b →
      (applyMetadataPatch q md).storage.order_by = some a) ∧
    (md.primary_key_ast = none →
      (applyMetadataPatch q md).storage.primary_key = q.storage.primary_key) ∧
    (∀ a, md.primary_key_ast = some a →
      (applyMetadataPatch q md).storage.primary_key = some a) ∧
    (md.ttl_for_table_ast = none →
      (applyMetadataPatch q md).storage.ttl_table = q.storage.ttl_table) ∧
    (∀ a, md.ttl_for_table_ast = some a →
      (applyMetadataPatch q md).storage.ttl_table = some a) ∧
    (md.settings_ast = none →
      (applyMetadataPatch q md).storage.settings = q.storage.settings) ∧
    (∀ a, md.settings_ast = some a →
      (applyMetadataPatch q md).storage.settings = some a) := by
  cases hob : md.order_by_ast <;> cases hqo : q.storage.order_by <;>
    cases hpk : md.primary_key_ast <;> cases httl : md.ttl_for_table_ast <;>
      cases hst : md.settings_ast <;>
        simp_all [applyMetadataPatch]

/-- Witness for C1 at the concrete table and patch: columns replaced, the
ordering key stays absent even though the patch supplies one, the primary
key is kept, the TTL is taken from the patch. -/
theorem C1_witness :
    (applyMetadataPatch exTableQuery exPatch).columns_list.columns = 10 ∧
    (applyMetadataPatch exTableQuery exPatch).storage.order_by = none ∧
    (applyMetadataPatch exTableQuery exPatch).storage.primary_key = some 2 ∧
    (applyMetadataPatch exTableQuery exPatch).storage.ttl_table = some 14 := by
  obtain ⟨h1, h2, h3, h4, h5, h6, h7, h8, h9, h10, h11, h12⟩ :=
    C1_alter_field_replacement exTableQuery exPatch
  exact ⟨h1, h4 rfl, h7 rfl, h10 14 rfl⟩

/-- C2: when the rename of the temporary file over the target definition
file fails, the temporary file is deleted, the rename error is propagated,
and the filesystem is pointwise identical to its state before the
operation — in particular the original definition file is byte-identical. -/
theorem C2_alter_rename_failure (parse : String → Option ASTCreateQuery)
    (format : ASTCreateQuery → String) (fsyncMetadata : Bool)
    (fs : FileSystem) (path : String) (md : StorageInMemoryMetadata)
    (s : String) (ast : ASTCreateQuery)
    (hread : fs path = some s) (hparse : parse s = some ast)
    (htmp : fs (path ++ ".tmp") = none) :
    (alterTable parse format fsyncMetadata false fs path md).2 =
      some (AlterError.renameFailure path) ∧
    (alterTable parse format fsyncMetadata false fs path md).1 (path ++ ".tmp") = none ∧
    (alterTable parse format fsyncMetadata false fs path md).1 path = some s ∧
    (∀ p, (alterTable parse format fsyncMetadata false fs path md).1 p = fs p) := by
  have hres : ∀ p, (fsErase (fsWrite fs (path ++ ".tmp")
      (format (applyMetadataPatch ast md))) (path ++ ".tmp")) p = fs p := by
    intro p
    by_cases hp : p = path ++ ".tmp" <;> simp [fsErase, fsWrite, hp, htmp]
  simp only [alterTable, hread, hparse, createExclusive, htmp, Option.isSome_none,
    Bool.false_eq_true, if_false, if_neg, ite_false]
  refine ⟨trivial, ?_, ?_, ?_⟩
  · exact (hres (path ++ ".tmp")).trans htmp
  · exact (hres path).trans hread
  · exact hres

/-- Witness for C2: a failing rename on the concrete filesystem leaves the
definition file and the rest of the filesystem untouched, removes the
temporary file and surfaces the rename error. -/
theorem C2_witness :
    (alterTable exParse exFormat false false exFS "metadata/t.sql" exPatch).2 =
      some (AlterError.renameFailure "metadata/t.sql") ∧
    (alterTable exParse exFormat false false exFS "metadata/t.sql" exPatch).1
      "metadata/t.sql" = some "CREATE t" ∧
    (alterTable exParse exFormat false false exFS "metadata/t.sql" exPatch).1
      "metadata/t.sql.tmp" = none := by
  obtain ⟨h1, h2, h3, h4⟩ :=
    C2_alter_rename_failure exParse exFormat false exFS "metadata/t.sql" exPatch
      "CREATE t" exTableQuery rfl rfl rfl
  exact ⟨h1, h3, (h4 "metadata/t.sql.tmp").trans rfl⟩

/-- C3: the temporary file `<original>.tmp` is created with exclusive-create
semantics. First conjuncts: an alter that finds the temporary file already
present fails with the file-already-exists (concurrent mutation) error and
leaves the filesystem untouched. Last conjunct: of two creations racing on
the same temporary filename, the one that runs first succeeds and the other
necessarily fails. -/
theorem C3_exclusive_tmp_creation (parse : String → Option ASTCreateQuery)
    (format : ASTCreateQuery → String) (fsyncMetadata renameSucceeds : Bool)
    (fs : FileSystem) (path : String) (md : StorageInMemoryMetadata)
    (s c : String) (ast : ASTCreateQuery)
    (hread : fs path = some s) (hparse : parse s = some ast)
    (htmp : fs (path ++ ".tmp") = some c) :
    (alterTable parse format fsyncMetadata renameSucceeds fs path md).2 =
      some (AlterError.fileAlreadyExists (path ++ ".tmp")) ∧
    (∀ p, (alterTable parse format fsyncMetadata renameSucceeds fs path md).1 p = fs p) ∧
    (∀ (g : FileSystem) (tmp c1 c2 : String), g tmp = none →
      ∃ g2, createExclusive g tmp c1 = some g2 ∧ createExclusive g2 tmp c2 = none) := by
  refine ⟨?_, ?_, ?_⟩
  · simp [alterTable, hread, hparse, createExclusive, htmp]
  · intro p
    simp [alterTable, hread, hparse, createExclusive, htmp]
  · intro g tmp c1 c2 hg
    refine ⟨fsWrite g tmp c1, ?_, ?_⟩
    · simp [createExclusive, hg]
    · simp [createExclusive, fsWrite]

/-- Witness for C3: on the concrete filesystem where the temporary file
already exists, the alter surfaces the concurrent-mutation signal and
changes nothing; and the two racing exclusive creations resolve with
exactly one winner. -/
theorem C3_witness :
    (alterTable exParse exFormat false true exFSWithTmp "metadata/t.sql" exPatch).2 =
      some (AlterError.fileAlreadyExists "metadata/t.sql.tmp") ∧
    (alterTable exParse exFormat false true exFSWithTmp "metadata/t.sql" exPatch).1
      "metadata/t.sql" = some "CREATE t" ∧
    (∃ g2, createExclusive exFS "metadata/t.sql.tmp" "CREATE t NEW" = some g2 ∧
      createExclusive g2 "metadata/t.sql.tmp" "CREATE t NEW2" = none) := by
  obtain ⟨h1, h2, h3⟩ :=
    C3_exclusive_tmp_creation exParse exFormat false true exFSWithTmp "metadata/t.sql"
      exPatch "CREATE t" "half" exTableQuery rfl rfl rfl
  exact ⟨h1, (h2 "metadata/t.sql").trans rfl, h3 exFS "metadata/t.sql.tmp"
    "CREATE t NEW" "CREATE t NEW2" rfl⟩

/-- A concrete dictionary descriptor. -/
def exDictQuery : ASTCreateQuery :=
  { is_dictionary := true
    table := "d"
    columns_list := { columns := 3, indices := none, constraints := none }
    storage := { order_by := none, primary_key := none, ttl_table := none, settings := none } }

/-- A concrete `serializeAST` for the witnesses. -/
def exSerialize : ASTCreateQuery → String := fun q => "SERIAL " ++ q.table

/-- A concrete failing table construction. -/
def exCreateFail : ASTCreateQuery → Except Exc (String × StoragePtr) :=
  fun _ => Except.error { message := "boom", code := 1 }

/-- A concrete failing dictionary registration. -/
def exDictFail : String → Option Exc := fun _ => some { message := "dict boom", code := 2 }

/-- C6: a failing table construction surfaces the wrapped attach-table
error whose message carries the table name, the serialized definition text
and the cause message, under `CANNOT_CREATE_TABLE_FROM_METADATA`; a failing
dictionary registration surfaces the analogous wrapped error under
`CANNOT_CREATE_DICTIONARY_FROM_METADATA`. -/
theorem C6_attach_error_wrapping (serialize : ASTCreateQuery → String)
    (createTableFromAST2 : ASTCreateQuery → Except Exc (String × StoragePtr))
    (attachDictionary2 : String → Option Exc)
    (qt qd : ASTCreateQuery) (e1 e2 : Exc)
    (h1 : createTableFromAST2 qt = Except.error e1)
    (h2 : attachDictionary2 qd.table = some e2) :
    tryAttachTable serialize createTableFromAST2 qt = Except.error
      { message := "Cannot attach table " ++ sq ++ qt.table ++ sq ++ " from query "
          ++ serialize qt ++ ". Error: " ++ e1.message
        code := CANNOT_CREATE_TABLE_FROM_METADATA } ∧
    tryAttachDictionary serialize attachDictionary2 qd = Except.error
      { message := "Cannot create dictionary " ++ sq ++ qd.table ++ sq ++ " from query "
          ++ serialize qd ++ ". Error: " ++ e2.message
        code := CANNOT_CREATE_DICTIONARY_FROM_METADATA } := by
  constructor
  · simp [tryAttachTable, h1]
  · simp [tryAttachDictionary, h2]

/-- Witness for C6 at a concrete serializer, construction failure and
registration failure. -/
theorem C6_witness :
    tryAttachTable exSerialize exCreateFail exTableQuery = Except.error
      { message := "Cannot attach table " ++ sq ++ exTableQuery.table ++ sq
          ++ " from query " ++ exSerialize exTableQuery ++ ". Error: " ++ "boom"
        code := CANNOT_CREATE_TABLE_FROM_METADATA } ∧
    tryAttachDictionary exSerialize exDictFail exDictQuery = Except.error
      { message := "Cannot create dictionary " ++ sq ++ exDictQuery.table ++ sq
          ++ " from query " ++ exSerialize exDictQuery ++ ". Error: " ++ "dict boom"
        code := CANNOT_CREATE_DICTIONARY_FROM_METADATA } := by
  obtain ⟨h1, h2⟩ := C6_attach_error_wrapping exSerialize exCreateFail exDictFail
    exTableQuery exDictQuery { message := "boom", code := 1 }
    { message := "dict boom", code := 2 } rfl rfl
  exact ⟨h1, h2⟩

/-- The discovery fold aborts at the first parse failure, wrapping the
metadata file path and the cause message under `CANNOT_PARSE_TEXT`. -/
theorem discoverAux_parse_error (metadataPath f cause : String)
    (post : List (String × ParseOutcome)) :
    ∀ (pre : List (String × ParseOutcome)) (acc : FileMap × Nat),
      (∀ p ∈ pre, ∀ c, p.2 ≠ Except.error c) →
      discoverAux metadataPath acc (pre ++ (f, Except.error cause) :: post) =
        Except.error
          { message := "Cannot parse definition from metadata file "
              ++ (metadataPath ++ f) ++ ". Error: " ++ cause
            code := CANNOT_PARSE_TEXT } := by
  intro pre
  induction pre with
  | nil => intro acc _; rfl
  | cons hd rest ih =>
    intro acc hpre
    obtain ⟨g, o⟩ := hd
    cases o with
    | error c => exact absurd rfl (hpre (g, Except.error c) (by simp) c)
    | ok oa =>
      cases oa with
      | none =>
        simp only [List.cons_append, discoverAux]
        exact ih _ (fun p hp c => hpre p (by simp [hp]) c)
      | some a =>
        simp only [List.cons_append, discoverAux]
        exact ih _ (fun p hp c => hpre p (by simp [hp]) c)

/-- C5: when some metadata file fails to parse (and the files enumerated
before it parse without error), the whole bootstrap aborts with the wrapped
parse error naming that file and the cause, and the trace is empty — no
object is attached. -/
theorem C5_parse_failure_aborts (env : BootstrapEnv)
    (pre post : List (String × ParseOutcome)) (f cause : String)
    (ao : List (String × ASTCreateQuery)) (so : List (String × StoragePtr))
    (hpre : ∀ p ∈ pre, ∀ c, p.2 ≠ Except.error c) :
    loadStoredObjects env (pre ++ (f, Except.error cause) :: post) ao so =
      ([], some { message := "Cannot parse definition from metadata file "
                    ++ (env.metadataPath ++ f) ++ ". Error: " ++ cause
                  code := CANNOT_PARSE_TEXT }) := by
  have h := discoverAux_parse_error env.metadataPath f cause post pre ([], 0) hpre
  simp [loadStoredObjects, discover, h]

/-- A concrete benign bootstrap environment: every construction,
startup and registration succeeds. -/
def exEnv : BootstrapEnv :=
  { metadataPath := "metadata/"
    serialize := exSerialize
    createTableFromAST2 := fun q => Except.ok (q.table, 0)
    startupTable := fun _ => none
    attachDictionary2 := fun _ => none }

/-- A concrete enumeration whose second metadata file fails to parse. -/
def exFilesParseFail : List (String × ParseOutcome) :=
  [("a.sql", Except.ok (some exTableQuery)), ("b.sql", Except.error "syntax error")]

/-- Witness for C5: the concrete bootstrap aborts with the wrapped parse
error for `b.sql` and an empty trace. -/
theorem C5_witness :
    loadStoredObjects exEnv exFilesParseFail [] [] =
      ([], some { message := "Cannot parse definition from metadata file "
                    ++ ("metadata/" ++ "b.sql") ++ ". Error: " ++ "syntax error"
                  code := CANNOT_PARSE_TEXT }) := by
  exact C5_parse_failure_aborts exEnv
    [("a.sql", Except.ok (some exTableQuery))] [] "b.sql" "syntax error" [] []
    (by intro p hp c; simp only [List.mem_singleton] at hp; subst hp; simp)

/-- A file whose parse produced a null AST is invisible to the discovery
fold. -/
theorem discoverAux_skip_null (metadataPath f : String)
    (l2 : List (String × ParseOutcome)) :
    ∀ (l1 : List (String × ParseOutcome)) (acc : FileMap × Nat),
      discoverAux metadataPath acc (l1 ++ (f, Except.ok none) :: l2) =
        discoverAux metadataPath acc (l1 ++ l2) := by
  intro l1
  induction l1 with
  | nil => intro acc; rfl
  | cons hd rest ih =>
    intro acc
    obtain ⟨g, o⟩ := hd
    cases o with
    | error c => rfl
    | ok oa =>
      cases oa with
      | none => simp only [List.cons_append, discoverAux]; exact ih _
      | some a => simp only [List.cons_append, discoverAux]; exact ih _

/-- C10: a definition file whose content parses to a null descriptor is
silently skipped: discovery returns the same map, dictionary count and
error behaviour as if the file were absent, and the whole bootstrap run
(trace and propagated error, hence catalog contents) is unchanged. -/
theorem C10_null_descriptor_skipped (env : BootstrapEnv)
    (l1 l2 : List (String × ParseOutcome)) (f : String)
    (ao : List (String × ASTCreateQuery)) (so : List (String × StoragePtr)) :
    discover env.metadataPath (l1 ++ (f, Except.ok none) :: l2) =
      discover env.metadataPath (l1 ++ l2) ∧
    loadStoredObjects env (l1 ++ (f, Except.ok none) :: l2) ao so =
      loadStoredObjects env (l1 ++ l2) ao so := by
  have h := discoverAux_skip_null env.metadataPath f l2 l1 ([], 0)
  exact ⟨h, by simp only [loadStoredObjects, discover]; rw [h]⟩

/-- Every emission index is strictly above the counter value the run
segment started from. -/
theorem emissionsFrom_gt (dt : Nat → Nat) :
    ∀ (n elapsed processed k : Nat), k ∈ emissionsFrom dt elapsed processed n →
      processed < k := by
  intro n
  induction n with
  | zero => intro elapsed processed k hk; simp [emissionsFrom] at hk
  | succ n ih =>
    intro elapsed processed k hk
    simp only [emissionsFrom] at hk
    by_cases hc : logAboutProgress (processed + 1) (elapsed + dt (processed + 1)) = true
    · rw [if_pos hc] at hk
      rcases List.mem_cons.mp hk with h | h
      · omega
      · have := ih 0 (processed + 1) k h
        omega
    · rw [if_neg hc] at hk
      have := ih (elapsed + dt (processed + 1)) (processed + 1) k hk
      omega

/-- Emission indices are strictly increasing: no object index is reported
twice. -/
theorem emissionsFrom_pairwise (dt : Nat → Nat) :
    ∀ (n elapsed processed : Nat),
      (emissionsFrom dt elapsed processed n).Pairwise (· < ·) := by
  intro n
  induction n with
  | zero => intro elapsed processed; simp [emissionsFrom]
  | succ n ih =>
    intro elapsed processed
    simp only [emissionsFrom]
    by_cases hc : logAboutProgress (processed + 1) (elapsed + dt (processed + 1)) = true
    · rw [if_pos hc]
      exact List.Pairwise.cons
        (fun k hk => emissionsFrom_gt dt n 0 (processed + 1) k hk) (ih 0 (processed + 1))
    · rw [if_neg hc]
      exact ih (elapsed + dt (processed + 1)) (processed + 1)

/-- Every multiple of the batch size inside the run segment is an emission
index, whatever the timing profile. -/
theorem emissionsFrom_mem_of_mod (dt : Nat → Nat) :
    ∀ (n elapsed processed k : Nat), processed < k → k ≤ processed + n →
      k % PRINT_MESSAGE_EACH_N_OBJECTS = 0 →
      k ∈ emissionsFrom dt elapsed processed n := by
  intro n
  induction n with
  | zero => intro elapsed processed k h1 h2 _; omega
  | succ n ih =>
    intro elapsed processed k h1 h2 hmod
    simp only [emissionsFrom]
    by_cases hk : k = processed + 1
    · have hc : logAboutProgress (processed + 1) (elapsed + dt (processed + 1)) = true := by
        subst hk
        simp [logAboutProgress, hmod]
      rw [if_pos hc]
      exact hk ▸ List.mem_cons_self _ _
    · by_cases hc : logAboutProgress (processed + 1) (elapsed + dt (processed + 1)) = true
      · rw [if_pos hc]
        exact List.mem_cons_of_mem _ (ih 0 (processed + 1) k (by omega) (by omega) hmod)
      · rw [if_neg hc]
        exact ih (elapsed + dt (processed + 1)) (processed + 1) k (by omega) (by omega) hmod

/-- Counterexample to C9: in a 1000-object phase during which the 5-second
timer never fires, progress is emitted exactly at objects 256, 512 and 768 —
there is no emission at object 1000, because 1000 is not a multiple of 256
and `logAboutProgress` has no completion-time special case. -/
theorem C9_counterexample :
    emittedAt (fun _ => 0) 1000 = [256, 512, 768] ∧
    1000 ∉ emittedAt (fun _ => 0) 1000 ∧
    logAboutProgress 1000 0 = false := by
  refine ⟨?_, ?_, rfl⟩ <;> decide

/-- C9 as amended: progress is emitted exactly when the per-phase counter is
a multiple of 256 or at least 5 seconds have elapsed since the last
emission, never more than once per completed object (the emission indices
are strictly increasing); with 1000 objects the guaranteed emissions are at
objects 256, 512 and 768 (an emission at 1000 happens only if the timer
fires). -/
theorem C9_progress_cadence_amended :
    (∀ p e, logAboutProgress p e = true ↔
      (p % PRINT_MESSAGE_EACH_N_OBJECTS = 0 ∨ PRINT_MESSAGE_EACH_N_SECONDS ≤ e)) ∧
    (∀ (dt : Nat → Nat) (total k : Nat), 0 < k → k ≤ total →
      k % PRINT_MESSAGE_EACH_N_OBJECTS = 0 → k ∈ emittedAt dt total) ∧
    (∀ (dt : Nat → Nat) (total : Nat), (emittedAt dt total).Pairwise (· < ·)) ∧
    emittedAt (fun _ => 0) 1000 = [256, 512, 768] := by
  refine ⟨?_, ?_, ?_, ?_⟩
  · intro p e; simp [logAboutProgress]
  · intro dt total k h1 h2 h3
    exact emissionsFrom_mem_of_mod dt total 0 0 k h1 (by omega) h3
  · intro dt total
    exact emissionsFrom_pairwise dt total 0 0
  · decide

/-- Witness for the amended C9: the guaranteed batch emissions of the
1000-object phase. -/
theorem C9_witness :
    256 ∈ emittedAt (fun _ => 0) 1000 ∧
    512 ∈ emittedAt (fun _ => 1) 1000 ∧
    768 ∈ emittedAt (fun n => n) 1000 ∧
    logAboutProgress 512 0 = true := by
  refine ⟨C9_progress_cadence_amended.2.1 (fun _ => 0) 1000 256
      (by decide) (by decide) (by decide),
    C9_progress_cadence_amended.2.1 (fun _ => 1) 1000 512
      (by decide) (by decide) (by decide),
    C9_progress_cadence_amended.2.1 (fun n => n) 1000 768
      (by decide) (by decide) (by decide), ?_⟩
  exact (C9_progress_cadence_amended.1 512 0).mpr (Or.inl (by decide))

/-- Keys after a `mapInsert` are the inserted key or old keys. -/
theorem mapInsert_keys_mem (k : String) (v : ASTCreateQuery) :
    ∀ (m : FileMap) (x : String), x ∈ (mapInsert k v m).map Prod.fst →
      x = k ∨ x ∈ m.map Prod.fst := by
  intro m
  induction m with
  | nil =>
    intro x hx
    simp [mapInsert] at hx
    exact Or.inl hx
  | cons hd rest ih =>
    intro x hx
    obtain ⟨k2, v2⟩ := hd
    simp only [mapInsert] at hx
    by_cases h1 : strLt k k2 = true
    · rw [if_pos h1] at hx
      simp only [List.map_cons, List.mem_cons] at hx ⊢
      tauto
    · rw [if_neg h1] at hx
      by_cases h2 : k = k2
      · rw [if_pos h2] at hx
        simp only [List.map_cons, List.mem_cons] at hx ⊢
        tauto
      · rw [if_neg h2] at hx
        simp only [List.map_cons, List.mem_cons] at hx ⊢
        rcases hx with h | h
        · tauto
        · rcases ih x h with h3 | h3 <;> tauto

/-- `mapInsert` preserves strict sortedness of the keys — the `std::map`
invariant. -/
theorem mapInsert_sorted (k : String) (v : ASTCreateQuery) :
    ∀ (m : FileMap), (m.map Prod.fst).Pairwise (fun a b => strLt a b = true) →
      ((mapInsert k v m).map Prod.fst).Pairwise (fun a b => strLt a b = true) := by
  intro m
  induction m with
  | nil =>
    intro _
    simp [mapInsert]
  | cons hd rest ih =>
    intro hs
    obtain ⟨k2, v2⟩ := hd
    simp only [List.map_cons, List.pairwise_cons] at hs
    obtain ⟨hk2, hrest⟩ := hs
    simp only [mapInsert]
    by_cases h1 : strLt k k2 = true
    · rw [if_pos h1]
      simp only [List.map_cons, List.pairwise_cons]
      refine ⟨?_, hk2, hrest⟩
      intro x hx
      simp only [List.mem_cons] at hx
      rcases hx with h | h
      · exact h ▸ h1
      · exact strLt_trans k k2 x h1 (hk2 x h)
    · rw [if_neg h1]
      by_cases h2 : k = k2
      · rw [if_pos h2]
        subst h2
        simp only [List.map_cons, List.pairwise_cons]
        exact ⟨hk2, hrest⟩
      · rw [if_neg h2]
        simp only [List.map_cons, List.pairwise_cons]
        refine ⟨?_, ih hrest⟩
        intro x hx
        rcases mapInsert_keys_mem k v rest x hx with h | h
        · exact h ▸ strLt_of_not_of_ne k k2
            (Bool.not_eq_true _ ▸ eq_false_of_ne_true h1) h2
        · exact hk2 x h

/-- The discovery fold keeps the filename map strictly key-sorted. -/
theorem discoverAux_sorted (metadataPath : String) :
    ∀ (l : List (String × ParseOutcome)) (acc : FileMap × Nat) (m : FileMap) (d : Nat),
      (acc.1.map Prod.fst).Pairwise (fun a b => strLt a b = true) →
      discoverAux metadataPath acc l = Except.ok (m, d) →
      (m.map Prod.fst).Pairwise (fun a b => strLt a b = true) := by
  intro l
  induction l with
  | nil =>
    intro acc m d hs h
    obtain ⟨ma, da⟩ := acc
    simp only [discoverAux, Except.ok.injEq, Prod.mk.injEq] at h
    exact h.1 ▸ hs
  | cons hd rest ih =>
    intro acc m d hs h
    obtain ⟨fn, o⟩ := hd
    cases o with
    | error c => simp [discoverAux] at h
    | ok oa =>
      cases oa with
      | none => exact ih acc m d hs h
      | some a =>
        exact ih _ m d (mapInsert_sorted fn a acc.1 hs) h

/-- The discovery map is strictly sorted by filename. -/
theorem discover_sorted (metadataPath : String) (files : List (String × ParseOutcome))
    (m : FileMap) (d : Nat) (h : discover metadataPath files = Except.ok (m, d)) :
    (m.map Prod.fst).Pairwise (fun a b => strLt a b = true) :=
  discoverAux_sorted metadataPath files ([], 0) m d (by simp) h

/-- The keys of a filtered map are still strictly sorted. -/
theorem filter_keys_sorted (m : FileMap) (p : String × ASTCreateQuery → Bool)
    (h : (m.map Prod.fst).Pairwise (fun a b => strLt a b = true)) :
    ((m.filter p).map Prod.fst).Pairwise (fun a b => strLt a b = true) :=
  List.Pairwise.sublist (List.Sublist.map Prod.fst (List.filter_sublist m)) h

/-- Bootstrap phase rank of an event: table attach 0, table startup 1,
dictionary-repository registration 2, dictionary attach 3. -/
def phaseOf : Event → Nat
  | Event.attachTableOk _ => 0
  | Event.attachTableFailed _ => 0
  | Event.startupTableOk _ => 1
  | Event.startupTableFailed _ => 1
  | Event.registerDictionaryRepository => 2
  | Event.attachDictionaryOk _ => 3
  | Event.attachDictionaryFailed _ => 3

/-- Recognizer for table-attach completion events. -/
def isTableAttachEvent : Event → Bool
  | Event.attachTableOk _ => true
  | Event.attachTableFailed _ => true
  | _ => false

/-- Recognizer for table-startup completion events. -/
def isStartupEvent : Event → Bool
  | Event.startupTableOk _ => true
  | Event.startupTableFailed _ => true
  | _ => false

/-- Recognizer for dictionary-attach completion events. -/
def isDictionaryEvent : Event → Bool
  | Event.attachDictionaryOk _ => true
  | Event.attachDictionaryFailed _ => true
  | _ => false

/-- The dictionary filenames processed in a trace, in trace order. -/
def dictionaryEventNames (tr : List Event) : List String :=
  tr.filterMap (fun ev =>
    match ev with
    | Event.attachDictionaryOk n => some n
    | Event.attachDictionaryFailed n => some n
    | _ => none)

/-- The event trace of one bootstrap run. -/
def bootstrapTrace (env : BootstrapEnv) (files : List (String × ParseOutcome))
    (ao : List (String × ASTCreateQuery)) (so : List (String × StoragePtr)) :
    List Event :=
  (loadStoredObjects env files ao so).1

/-- The propagated error of one bootstrap run. -/
def bootstrapError (env : BootstrapEnv) (files : List (String × ParseOutcome))
    (ao : List (String × ASTCreateQuery)) (so : List (String × StoragePtr)) :
    Option Exc :=
  (loadStoredObjects env files ao so).2

/-- Attach units produce phase-0 events. -/
theorem phaseOf_attachEvent (env : BootstrapEnv) (p : String × ASTCreateQuery) :
    phaseOf (attachEvent env p) = 0 := by
  unfold attachEvent
  cases tryAttachTable env.serialize env.createTableFromAST2 p.2 <;> rfl

/-- Startup units produce phase-1 events. -/
theorem phaseOf_startupEvent (env : BootstrapEnv) (p : String × StoragePtr) :
    phaseOf (startupEvent env p) = 1 := by
  unfold startupEvent
  cases env.startupTable p.2 <;> rfl

/-- Dictionary units produce phase-3 events. -/
theorem phaseOf_dictEvent (env : BootstrapEnv) :
    ∀ (l : List (String × ASTCreateQuery)) (e : Event),
      e ∈ (attachDictionariesSeq env l).1 → phaseOf e = 3 := by
  intro l
  induction l with
  | nil => intro e he; simp [attachDictionariesSeq] at he
  | cons hd rest ih =>
    intro e he
    obtain ⟨fn, q⟩ := hd
    simp only [attachDictionariesSeq] at he
    cases htry : tryAttachDictionary env.serialize env.attachDictionary2 q with
    | error e2 =>
      rw [htry] at he
      simp only [List.mem_singleton] at he
      subst he
      rfl
    | ok u =>
      rw [htry] at he
      simp only [List.mem_cons] at he
      rcases he with he | he
      · subst he; rfl
      · exact ih e he

/-- Monotone phases along a trace. -/
def PhaseMono (tr : List Event) : Prop :=
  tr.Pairwise (fun a b => phaseOf a ≤ phaseOf b)

/-- A trace of constant phase is phase-monotone. -/
theorem phaseMono_of_const (c : Nat) :
    ∀ (l : List Event), (∀ e ∈ l, phaseOf e = c) → PhaseMono l := by
  intro l
  induction l with
  | nil => intro _; exact List.Pairwise.nil
  | cons hd rest ih =>
    intro h
    refine List.Pairwise.cons ?_ (ih (fun e he => h e (List.mem_cons_of_mem hd he)))
    intro b hb
    rw [h hd (List.mem_cons_self hd rest), h b (List.mem_cons_of_mem hd hb)]

/-- The full bootstrap trace is phase-monotone: all attach events precede
all startup events, which precede registration, which precedes all
dictionary events. -/
theorem bootstrapTrace_phaseMono (env : BootstrapEnv)
    (files : List (String × ParseOutcome))
    (ao : List (String × ASTCreateQuery)) (so : List (String × StoragePtr)) :
    PhaseMono (bootstrapTrace env files ao so) := by
  have haev : ∀ e ∈ ao.map (attachEvent env), phaseOf e = 0 := by
    intro e he
    obtain ⟨p, _, rfl⟩ := List.mem_map.mp he
    exact phaseOf_attachEvent env p
  have hsev : ∀ e ∈ so.map (startupEvent env), phaseOf e = 1 := by
    intro e he
    obtain ⟨p, _, rfl⟩ := List.mem_map.mp he
    exact phaseOf_startupEvent env p
  unfold bootstrapTrace loadStoredObjects
  split
  · exact List.Pairwise.nil
  · rename_i m d heq
    split
    · exact phaseMono_of_const 0 _ haev
    · split
      · refine List.pairwise_append.mpr ⟨phaseMono_of_const 0 _ haev,
          phaseMono_of_const 1 _ hsev, ?_⟩
        intro a ha b hb
        rw [haev a ha, hsev b hb]
        omega
      · refine List.pairwise_append.mpr ⟨?_, ?_, ?_⟩
        · refine List.pairwise_append.mpr ⟨phaseMono_of_const 0 _ haev,
            phaseMono_of_const 1 _ hsev, ?_⟩
          intro a ha b hb
          rw [haev a ha, hsev b hb]
          omega
        · refine List.Pairwise.cons ?_ ?_
          · intro b hb
            rw [phaseOf_dictEvent env (dictQueries m) b hb]
            decide
          · exact phaseMono_of_const 3 _
              (fun e he => phaseOf_dictEvent env (dictQueries m) e he)
        · intro a ha b hb
          have hpa : phaseOf a ≤ 1 := by
            rcases List.mem_append.mp ha with h | h
            · rw [haev a h]; omega
            · rw [hsev a h]
          have hpb : 2 ≤ phaseOf b := by
            rcases List.mem_cons.mp hb with h | h
            · subst h; simp [phaseOf]
            · rw [phaseOf_dictEvent env (dictQueries m) b h]; omega
          omega

/-- In a phase-monotone trace, an event of strictly smaller phase sits at a
strictly smaller index. -/
theorem phaseMono_get_lt (tr : List Event) (h : PhaseMono tr) (i j : Nat) (ea eb : Event)
    (hi : tr.get? i = some ea) (hj : tr.get? j = some eb)
    (hlt : phaseOf ea < phaseOf eb) : i < j := by
  rcases Nat.lt_trichotomy i j with hij | hij | hij
  · exact hij
  · subst hij
    rw [hi] at hj
    injection hj with hj
    subst hj
    exact absurd hlt (lt_irrefl _)
  · obtain ⟨hjlen, hjget⟩ := List.get?_eq_some.mp hj
    obtain ⟨hilen, higet⟩ := List.get?_eq_some.mp hi
    have hp := List.pairwise_iff_get.mp h ⟨j, hjlen⟩ ⟨i, hilen⟩ hij
    rw [hjget, higet] at hp
    omega

/-- A table-attach event has phase 0. -/
theorem phaseOf_of_isTableAttach (e : Event) (h : isTableAttachEvent e = true) :
    phaseOf e = 0 := by
  cases e <;> simp_all [isTableAttachEvent, phaseOf]

/-- A startup event has phase 1. -/
theorem phaseOf_of_isStartup (e : Event) (h : isStartupEvent e = true) :
    phaseOf e = 1 := by
  cases e <;> simp_all [isStartupEvent, phaseOf]

/-- A dictionary event has phase 3. -/
theorem phaseOf_of_isDictionary (e : Event) (h : isDictionaryEvent e = true) :
    phaseOf e = 3 := by
  cases e <;> simp_all [isDictionaryEvent, phaseOf]

/-- An attach unit never produces a dictionary-failure event. -/
theorem attachEvent_ne_dictFailed (env : BootstrapEnv) (p : String × ASTCreateQuery)
    (n : String) : attachEvent env p ≠ Event.attachDictionaryFailed n := by
  unfold attachEvent
  cases tryAttachTable env.serialize env.createTableFromAST2 p.2 <;> simp

/-- A startup unit never produces a dictionary-failure event. -/
theorem startupEvent_ne_dictFailed (env : BootstrapEnv) (p : String × StoragePtr)
    (n : String) : startupEvent env p ≠ Event.attachDictionaryFailed n := by
  unfold startupEvent
  cases env.startupTable p.2 <;> simp

/-- Attach segments contribute no dictionary names. -/
theorem dictionaryEventNames_attach (env : BootstrapEnv)
    (ao : List (String × ASTCreateQuery)) :
    dictionaryEventNames (ao.map (attachEvent env)) = [] := by
  rw [dictionaryEventNames, List.filterMap_map]
  refine List.filterMap_eq_nil_iff.mpr ?_
  intro p _
  simp only [Function.comp]
  unfold attachEvent
  cases tryAttachTable env.serialize env.createTableFromAST2 p.2 <;> rfl

/-- Startup segments contribute no dictionary names. -/
theorem dictionaryEventNames_startup (env : BootstrapEnv)
    (so : List (String × StoragePtr)) :
    dictionaryEventNames (so.map (startupEvent env)) = [] := by
  rw [dictionaryEventNames, List.filterMap_map]
  refine List.filterMap_eq_nil_iff.mpr ?_
  intro p _
  simp only [Function.comp]
  unfold startupEvent
  cases env.startupTable p.2 <;> rfl

/-- The dictionary filenames of the sequential dictionary phase form a
prefix of the processed entry list's filenames. -/
theorem attachDictionariesSeq_names (env : BootstrapEnv) :
    ∀ (l : List (String × ASTCreateQuery)),
      ∃ rest, l.map Prod.fst =
        dictionaryEventNames (attachDictionariesSeq env l).1 ++ rest := by
  intro l
  induction l with
  | nil => exact ⟨[], rfl⟩
  | cons hd rest2 ih =>
    obtain ⟨fn, q⟩ := hd
    simp only [attachDictionariesSeq]
    cases htry : tryAttachDictionary env.serialize env.attachDictionary2 q with
    | error e =>
      exact ⟨rest2.map Prod.fst, by simp [dictionaryEventNames]⟩
    | ok u =>
      obtain ⟨r, hr⟩ := ih
      refine ⟨r, ?_⟩
      simp only [List.map_cons, dictionaryEventNames, List.filterMap_cons] at hr ⊢
      rw [hr]
      rfl

/-- A dictionary-failure event ends the sequential dictionary phase. -/
theorem attachDictionariesSeq_failed_last (env : BootstrapEnv) :
    ∀ (l : List (String × ASTCreateQuery)) (i : Nat) (n : String),
      ((attachDictionariesSeq env l).1).get? i = some (Event.attachDictionaryFailed n) →
      ((attachDictionariesSeq env l).1).length = i + 1 := by
  intro l
  induction l with
  | nil => intro i n h; simp [attachDictionariesSeq] at h
  | cons hd rest ih =>
    intro i n h
    obtain ⟨fn, q⟩ := hd
    simp only [attachDictionariesSeq] at h ⊢
    cases htry : tryAttachDictionary env.serialize env.attachDictionary2 q with
    | error e =>
      rw [htry] at h
      have hlen := (List.get?_eq_some.mp h).1
      simp only [List.length_singleton] at hlen ⊢
      omega
    | ok u =>
      rw [htry] at h
      cases i with
      | zero => simp at h
      | succ i2 =>
        simp only [List.get?_cons_succ] at h
        simp only [List.length_cons]
        rw [ih i2 n h]

/-- Appending traces concatenates their dictionary names. -/
theorem dictionaryEventNames_append (l1 l2 : List Event) :
    dictionaryEventNames (l1 ++ l2) = dictionaryEventNames l1 ++ dictionaryEventNames l2 := by
  simp [dictionaryEventNames, List.filterMap_append]

/-- The registration event contributes no dictionary name. -/
theorem dictionaryEventNames_register (l : List Event) :
    dictionaryEventNames (Event.registerDictionaryRepository :: l) =
      dictionaryEventNames l := by
  simp [dictionaryEventNames]

/-- The dictionary names of a bootstrap trace are strictly sorted, and a
dictionary-failure event is always the last event of the trace. -/
theorem bootstrapTrace_dict_segment (env : BootstrapEnv)
    (files : List (String × ParseOutcome))
    (ao : List (String × ASTCreateQuery)) (so : List (String × StoragePtr)) :
    (dictionaryEventNames (bootstrapTrace env files ao so)).Pairwise
      (fun a b => strLt a b = true) ∧
    (∀ i n, (bootstrapTrace env files ao so).get? i =
        some (Event.attachDictionaryFailed n) →
      (bootstrapTrace env files ao so).length = i + 1) := by
  unfold bootstrapTrace loadStoredObjects
  split
  · exact ⟨by simp [dictionaryEventNames], by intro i n h; simp at h⟩
  · rename_i m d heq
    split
    · refine ⟨?_, ?_⟩
      · rw [dictionaryEventNames_attach]
        exact List.Pairwise.nil
      · intro i n h
        obtain ⟨p, _, hp⟩ := List.mem_map.mp (List.get?_mem h)
        exact absurd hp (attachEvent_ne_dictFailed env p n)
    · split
      · refine ⟨?_, ?_⟩
        · rw [dictionaryEventNames_append, dictionaryEventNames_attach,
            dictionaryEventNames_startup]
          exact List.Pairwise.nil
        · intro i n h
          rcases List.mem_append.mp (List.get?_mem h) with hm | hm
          · obtain ⟨p, _, hp⟩ := List.mem_map.mp hm
            exact absurd hp (attachEvent_ne_dictFailed env p n)
          · obtain ⟨p, _, hp⟩ := List.mem_map.mp hm
            exact absurd hp (startupEvent_ne_dictFailed env p n)
      · refine ⟨?_, ?_⟩
        · rw [dictionaryEventNames_append, dictionaryEventNames_append,
            dictionaryEventNames_attach, dictionaryEventNames_startup,
            dictionaryEventNames_register]
          have hsorted := discover_sorted env.metadataPath files m d heq
          have hdq : ((dictQueries m).map Prod.fst).Pairwise
              (fun a b => strLt a b = true) :=
            filter_keys_sorted m (fun p => p.2.is_dictionary) hsorted
          obtain ⟨rest, hr⟩ := attachDictionariesSeq_names env (dictQueries m)
          rw [hr] at hdq
          simp only [List.nil_append]
          exact List.Pairwise.sublist (List.sublist_append_left _ _) hdq
        · intro i n h
          by_cases hi : i < (ao.map (attachEvent env) ++ so.map (startupEvent env)).length
          · rw [List.get?_append hi] at h
            rcases List.mem_append.mp (List.get?_mem h) with hm | hm
            · obtain ⟨p, _, hp⟩ := List.mem_map.mp hm
              exact absurd hp (attachEvent_ne_dictFailed env p n)
            · obtain ⟨p, _, hp⟩ := List.mem_map.mp hm
              exact absurd hp (startupEvent_ne_dictFailed env p n)
          · push_neg at hi
            rw [List.get?_append_right hi] at h
            cases hd2 : i - (ao.map (attachEvent env) ++ so.map (startupEvent env)).length with
            | zero =>
              rw [hd2] at h
              simp at h
            | succ j =>
              rw [hd2] at h
              simp only [List.get?_cons_succ] at h
              have hlen := attachDictionariesSeq_failed_last env (dictQueries m) j n h
              simp only [List.length_append, List.length_cons]
              simp only [List.length_append] at hi hd2
              omega

/-- C7: bootstrap phases are strictly ordered. Every table-attach event
precedes every table-startup event; every startup event precedes the
dictionary-repository registration; the registration precedes every
dictionary event; the dictionary units run in strictly increasing (hence
lexicographic) filename order; and a dictionary failure is the last event
of the run — the remaining sequence is aborted. -/
theorem C7_phase_ordering (env : BootstrapEnv) (files : List (String × ParseOutcome))
    (ao : List (String × ASTCreateQuery)) (so : List (String × StoragePtr)) :
    (∀ i j ea eb, (bootstrapTrace env files ao so).get? i = some ea →
      isTableAttachEvent ea = true →
      (bootstrapTrace env files ao so).get? j = some eb →
      isStartupEvent eb = true → i < j) ∧
    (∀ i j eb, (bootstrapTrace env files ao so).get? i = some eb →
      isStartupEvent eb = true →
      (bootstrapTrace env files ao so).get? j =
        some Event.registerDictionaryRepository → i < j) ∧
    (∀ i j ed, (bootstrapTrace env files ao so).get? i =
        some Event.registerDictionaryRepository →
      (bootstrapTrace env files ao so).get? j = some ed →
      isDictionaryEvent ed = true → i < j) ∧
    (dictionaryEventNames (bootstrapTrace env files ao so)).Pairwise
      (fun a b => strLt a b = true) ∧
    (∀ i n, (bootstrapTrace env files ao so).get? i =
        some (Event.attachDictionaryFailed n) →
      (bootstrapTrace env files ao so).length = i + 1) := by
  have hmono := bootstrapTrace_phaseMono env files ao so
  have hseg := bootstrapTrace_dict_segment env files ao so
  refine ⟨?_, ?_, ?_, hseg.1, hseg.2⟩
  · intro i j ea eb hi ha hj hb
    exact phaseMono_get_lt _ hmono i j ea eb hi hj
      (by rw [phaseOf_of_isTableAttach ea ha, phaseOf_of_isStartup eb hb]; omega)
  · intro i j eb hi hb hj
    exact phaseMono_get_lt _ hmono i j eb Event.registerDictionaryRepository hi hj
      (by rw [phaseOf_of_isStartup eb hb]; decide)
  · intro i j ed hi hj hd
    exact phaseMono_get_lt _ hmono i j Event.registerDictionaryRepository ed hi hj
      (by rw [phaseOf_of_isDictionary ed hd]; decide)

/-- A benign enumeration with one table and one dictionary. -/
def exFilesOk : List (String × ParseOutcome) :=
  [("a.sql", Except.ok (some exTableQuery)), ("d.sql", Except.ok (some exDictQuery))]

/-- The attach completion schedule of the concrete run. -/
def exAO : List (String × ASTCreateQuery) := [("a.sql", exTableQuery)]

/-- The startup completion schedule of the concrete run. -/
def exSO : List (String × StoragePtr) := [("t", 0)]

/-- Witness for C7: the concrete benign run produces the fully ordered
trace, and the theorem yields the index orderings at its concrete events. -/
theorem C7_witness :
    bootstrapTrace exEnv exFilesOk exAO exSO =
      [Event.attachTableOk "a.sql", Event.startupTableOk "t",
       Event.registerDictionaryRepository, Event.attachDictionaryOk "d.sql"] ∧
    (0 : Nat) < 1 ∧ (1 : Nat) < 2 ∧ (2 : Nat) < 3 := by
  refine ⟨by decide, ?_, ?_, ?_⟩
  · exact (C7_phase_ordering exEnv exFilesOk exAO exSO).1 0 1
      (Event.attachTableOk "a.sql") (Event.startupTableOk "t")
      (by decide) (by decide) (by decide) (by decide)
  · exact (C7_phase_ordering exEnv exFilesOk exAO exSO).2.1 1 2
      (Event.startupTableOk "t") (by decide) (by decide) (by decide)
  · exact (C7_phase_ordering exEnv exFilesOk exAO exSO).2.2.1 2 3
      (Event.attachDictionaryOk "d.sql") (by decide) (by decide) (by decide)

/-- `firstError` skips a prefix of successes and returns the first error. -/
theorem firstError_of_prefix_ok {α : Type} :
    ∀ (l1 : List (String × Except Exc α)) (fn : String) (e : Exc)
      (l2 : List (String × Except Exc α)),
      (∀ p ∈ l1, ∃ r, p.2 = Except.ok r) →
      firstError (l1 ++ (fn, Except.error e) :: l2) = some e := by
  intro l1
  induction l1 with
  | nil => intro fn e l2 _; rfl
  | cons hd rest ih =>
    intro fn e l2 h
    obtain ⟨g, o⟩ := hd
    obtain ⟨r, hr⟩ := h (g, o) (by simp)
    simp only at hr
    subst hr
    simp only [List.cons_append, firstError]
    exact ih fn e l2 (fun p hp => h p (by simp [hp]))

/-- C8: in the table-attach phase (pool semantics modelled from the spec:
run every submitted unit to completion, then rethrow the first failure in
submission order), a failing unit preceded by successful units makes
bootstrap propagate exactly that unit's wrapped error, while the completion
event of every submitted unit — failed or not — still appears in the trace. -/
theorem C8_first_failure_propagated (env : BootstrapEnv)
    (files : List (String × ParseOutcome)) (m : FileMap) (d : Nat)
    (pre post : List (String × ASTCreateQuery)) (fn : String) (q : ASTCreateQuery)
    (e : Exc) (ao : List (String × ASTCreateQuery)) (so : List (String × StoragePtr))
    (hdisc : discover env.metadataPath files = Except.ok (m, d))
    (hsplit : tableQueries m = pre ++ (fn, q) :: post)
    (hpre : ∀ p ∈ pre, ∃ r,
      tryAttachTable env.serialize env.createTableFromAST2 p.2 = Except.ok r)
    (hq : tryAttachTable env.serialize env.createTableFromAST2 q = Except.error e)
    (hao : ao.Perm (tableQueries m)) :
    bootstrapError env files ao so = some e ∧
    ∀ p ∈ tableQueries m, attachEvent env p ∈ bootstrapTrace env files ao so := by
  have hfe : firstError (attachResults env (tableQueries m)) = some e := by
    rw [hsplit]
    unfold attachResults
    rw [List.map_append, List.map_cons]
    simp only [hq]
    refine firstError_of_prefix_ok _ fn e _ ?_
    intro p hp
    obtain ⟨p0, hp0, hpeq⟩ := List.mem_map.mp hp
    obtain ⟨r, hr⟩ := hpre p0 hp0
    exact ⟨r, by rw [← hpeq]; simpa using hr⟩
  constructor
  · unfold bootstrapError loadStoredObjects
    simp [hdisc, hfe]
  · intro p hp
    unfold bootstrapTrace loadStoredObjects
    simp only [hdisc, hfe]
    exact List.mem_map_of_mem _ (hao.mem_iff.mpr hp)

/-- A second concrete table descriptor whose construction the failing
environment rejects. -/
def exBadQuery : ASTCreateQuery :=
  { is_dictionary := false
    table := "bad"
    columns_list := { columns := 5, indices := none, constraints := none }
    storage := { order_by := none, primary_key := none, ttl_table := none, settings := none } }

/-- A bootstrap environment that fails to construct the table named `bad`. -/
def exEnvFail : BootstrapEnv :=
  { metadataPath := "metadata/"
    serialize := exSerialize
    createTableFromAST2 := fun q =>
      if q.table = "bad" then Except.error { message := "boom", code := 1 }
      else Except.ok (q.table, 0)
    startupTable := fun _ => none
    attachDictionary2 := fun _ => none }

/-- Two well-parsed table files, the second of which fails to attach. -/
def exFilesFail : List (String × ParseOutcome) :=
  [("a.sql", Except.ok (some exTableQuery)), ("b.sql", Except.ok (some exBadQuery))]

/-- The wrapped attach error of the failing unit. -/
def exWrapExc : Exc :=
  { message := "Cannot attach table " ++ sq ++ "bad" ++ sq
      ++ " from query SERIAL bad. Error: boom"
    code := CANNOT_CREATE_TABLE_FROM_METADATA }

/-- A completion schedule that finishes the failing unit first — the
propagated error is still the first failure in submission order. -/
def exAOFail : List (String × ASTCreateQuery) :=
  [("b.sql", exBadQuery), ("a.sql", exTableQuery)]

/-- Witness for C8: on the concrete two-table run with the second table
failing, the propagated error is the wrapped failure of `b.sql` (first and
only failure in submission order, although it completed first in the
schedule) and both units appear in the trace. -/
theorem C8_witness :
    bootstrapError exEnvFail exFilesFail exAOFail [] = some exWrapExc ∧
    attachEvent exEnvFail ("a.sql", exTableQuery) ∈
      bootstrapTrace exEnvFail exFilesFail exAOFail [] ∧
    attachEvent exEnvFail ("b.sql", exBadQuery) ∈
      bootstrapTrace exEnvFail exFilesFail exAOFail [] := by
  obtain ⟨h1, h2⟩ := C8_first_failure_propagated exEnvFail exFilesFail
    [("a.sql", exTableQuery), ("b.sql", exBadQuery)] 0
    [("a.sql", exTableQuery)] [] "b.sql" exBadQuery exWrapExc exAOFail []
    rfl rfl
    (by
      intro p hp
      simp only [List.mem_singleton] at hp
      subst hp
      exact ⟨("t", 0), rfl⟩)
    rfl
    (List.Perm.swap ("a.sql", exTableQuery) ("b.sql", exBadQuery) [])
  exact ⟨h1, h2 ("a.sql", exTableQuery) (by decide),
    h2 ("b.sql", exBadQuery) (by decide)⟩

/-- The successfully parsed entry of one enumerated file, if any. -/
def toParsed (p : String × ParseOutcome) : Option (String × ASTCreateQuery) :=
  match p.2 with
  | Except.ok (some a) => some (p.1, a)
  | _ => none

/-- The parsed entries of an enumeration, in enumeration order. -/
def parsedEntries (l : List (String × ParseOutcome)) : List (String × ASTCreateQuery) :=
  l.filterMap toParsed

/-- Folding `mapInsert` over a list of parsed entries — what the discovery
callback does to the `std::map`. -/
def insFold (acc : FileMap) (es : List (String × ASTCreateQuery)) : FileMap :=
  es.foldl (fun mm e => mapInsert e.1 e.2 mm) acc

/-- On an error-free enumeration the discovery fold succeeds and returns
the inserted map together with the dictionary count. -/
theorem discoverAux_no_error (metadataPath : String) :
    ∀ (l : List (String × ParseOutcome)) (acc : FileMap × Nat),
      (∀ p ∈ l, ∀ c, p.2 ≠ Except.error c) →
      discoverAux metadataPath acc l =
        Except.ok (insFold acc.1 (parsedEntries l),
          acc.2 + (parsedEntries l).countP (fun e => e.2.is_dictionary)) := by
  intro l
  induction l with
  | nil => intro acc _; simp [discoverAux, parsedEntries, insFold]
  | cons hd rest ih =>
    intro acc h
    obtain ⟨fn, o⟩ := hd
    cases o with
    | error c => exact absurd rfl (h (fn, Except.error c) (by simp) c)
    | ok oa =>
      cases oa with
      | none =>
        simp only [discoverAux]
        rw [ih acc (fun p hp c => h p (by simp [hp]) c)]
        simp [parsedEntries, List.filterMap_cons, toParsed]
      | some a =>
        simp only [discoverAux]
        rw [ih _ (fun p hp c => h p (by simp [hp]) c)]
        simp only [parsedEntries, List.filterMap_cons, toParsed]
        simp only [insFold, List.foldl_cons, List.countP_cons]
        cases hdict : a.is_dictionary <;> simp [hdict] <;> omega

/-- Inserting a fresh key is, up to permutation, consing the entry. -/
theorem mapInsert_perm (k : String) (v : ASTCreateQuery) :
    ∀ (m : FileMap), k ∉ m.map Prod.fst → (mapInsert k v m).Perm ((k, v) :: m) := by
  intro m
  induction m with
  | nil => intro _; simp [mapInsert]
  | cons hd rest ih =>
    intro hk
    obtain ⟨k2, v2⟩ := hd
    simp only [List.map_cons, List.mem_cons] at hk
    push_neg at hk
    obtain ⟨hk1, hk2mem⟩ := hk
    simp only [mapInsert]
    by_cases h1 : strLt k k2 = true
    · rw [if_pos h1]
    · rw [if_neg h1, if_neg hk1]
      calc (k2, v2) :: mapInsert k v rest
          ~ (k2, v2) :: (k, v) :: rest := (ih hk2mem).cons _
        _ ~ (k, v) :: (k2, v2) :: rest := List.Perm.swap _ _ _

/-- With pairwise-distinct keys, the insert fold is, up to permutation,
appending the entries. -/
theorem insFold_perm :
    ∀ (es : List (String × ASTCreateQuery)) (acc : FileMap),
      (acc.map Prod.fst ++ es.map Prod.fst).Nodup →
      (insFold acc es).Perm (acc ++ es) := by
  intro es
  induction es with
  | nil => intro acc _; simp [insFold]
  | cons hd es2 ih =>
    intro acc hnd
    obtain ⟨k, v⟩ := hd
    simp only [insFold, List.foldl_cons]
    have hkacc : k ∉ acc.map Prod.fst := by
      simp only [List.map_cons] at hnd
      have hsplit2 := List.nodup_append.mp hnd
      intro hmem
      exact hsplit2.2.2 hmem (List.mem_cons_self k _)
    have hpermIns : ((mapInsert k v acc).map Prod.fst).Perm
        (k :: acc.map Prod.fst) := by
      have hp := (mapInsert_perm k v acc hkacc).map Prod.fst
      simpa using hp
    have hnd2 : ((mapInsert k v acc).map Prod.fst ++ es2.map Prod.fst).Nodup := by
      refine ((hpermIns.append_right _).nodup_iff).mpr ?_
      have hpm : (acc.map Prod.fst ++ k :: es2.map Prod.fst).Perm
          (k :: (acc.map Prod.fst ++ es2.map Prod.fst)) := List.perm_middle
      simpa using hpm.nodup_iff.mp (by simpa using hnd)
    calc insFold (mapInsert k v acc) es2
        ~ mapInsert k v acc ++ es2 := ih _ hnd2
      _ ~ ((k, v) :: acc) ++ es2 := (mapInsert_perm k v acc hkacc).append_right es2
      _ ~ acc ++ (k, v) :: es2 := List.perm_middle.symm

/-- The insert fold keeps keys strictly sorted. -/
theorem insFold_sorted :
    ∀ (es : List (String × ASTCreateQuery)) (acc : FileMap),
      (acc.map Prod.fst).Pairwise (fun a b => strLt a b = true) →
      ((insFold acc es).map Prod.fst).Pairwise (fun a b => strLt a b = true) := by
  intro es
  induction es with
  | nil => intro acc h; exact h
  | cons hd es2 ih =>
    intro acc h
    obtain ⟨k, v⟩ := hd
    simp only [insFold, List.foldl_cons]
    exact ih _ (mapInsert_sorted k v acc h)

/-- The parsed-entry filenames are a sublist of the enumerated filenames. -/
theorem parsedEntries_keys_sublist :
    ∀ (l : List (String × ParseOutcome)),
      (parsedEntries l).map Prod.fst <+ l.map Prod.fst := by
  intro l
  induction l with
  | nil => simp [parsedEntries]
  | cons hd rest ih =>
    obtain ⟨fn, o⟩ := hd
    cases o with
    | error c =>
      simp only [parsedEntries, List.filterMap_cons, toParsed, List.map_cons]
      exact ih.cons fn
    | ok oa =>
      cases oa with
      | none =>
        simp only [parsedEntries, List.filterMap_cons, toParsed, List.map_cons]
        exact ih.cons fn
      | some a =>
        simp only [parsedEntries, List.filterMap_cons, toParsed, List.map_cons]
        exact ih.cons₂ fn

/-- Strict key precedence between map entries. -/
def entryLt (p q : String × ASTCreateQuery) : Prop := strLt p.1 q.1 = true

instance instIsAntisymmEntryLt : IsAntisymm (String × ASTCreateQuery) entryLt :=
  ⟨fun a b h1 h2 => absurd h2 (by
    unfold entryLt at h1 ⊢
    rw [strLt_asymm _ _ h1]
    simp)⟩

/-- C4: the discovery map — and with it the whole bootstrap processing
order — is independent of the order in which the filesystem enumeration
delivers the filenames, and both the table-attach submission sequence and
the sequential dictionary sequence are strictly lexicographically sorted by
filename. -/
theorem C4_deterministic_lexicographic_bootstrap (env : BootstrapEnv)
    (files1 files2 : List (String × ParseOutcome)) (m : FileMap) (d : Nat)
    (ao : List (String × ASTCreateQuery)) (so : List (String × StoragePtr))
    (hperm : files1.Perm files2)
    (hnodup : (files1.map Prod.fst).Nodup)
    (hok : ∀ p ∈ files1, ∀ c, p.2 ≠ Except.error c)
    (hm : discover env.metadataPath files1 = Except.ok (m, d)) :
    discover env.metadataPath files2 = Except.ok (m, d) ∧
    loadStoredObjects env files2 ao so = loadStoredObjects env files1 ao so ∧
    ((tableQueries m).map Prod.fst).Pairwise (fun a b => strLt a b = true) ∧
    ((dictQueries m).map Prod.fst).Pairwise (fun a b => strLt a b = true) := by
  have hok2 : ∀ p ∈ files2, ∀ c, p.2 ≠ Except.error c :=
    fun p hp => hok p (hperm.mem_iff.mpr hp)
  have h1 := discoverAux_no_error env.metadataPath files1 ([], 0) hok
  have h2 := discoverAux_no_error env.metadataPath files2 ([], 0) hok2
  have hm1 : insFold [] (parsedEntries files1) = m ∧
      0 + (parsedEntries files1).countP (fun e => e.2.is_dictionary) = d := by
    have hc := hm
    rw [discover, h1] at hc
    simpa using hc
  have hpe : (parsedEntries files1).Perm (parsedEntries files2) :=
    hperm.filterMap toParsed
  have hkeys1 : ((parsedEntries files1).map Prod.fst).Nodup :=
    List.Nodup.sublist (parsedEntries_keys_sublist files1) hnodup
  have hkeys2 : ((parsedEntries files2).map Prod.fst).Nodup :=
    List.Nodup.sublist (parsedEntries_keys_sublist files2)
      (((hperm.map Prod.fst).nodup_iff).mp hnodup)
  have hperm1 : (insFold [] (parsedEntries files1)).Perm (parsedEntries files1) :=
    insFold_perm (parsedEntries files1) [] (by simpa using hkeys1)
  have hperm2 : (insFold [] (parsedEntries files2)).Perm (parsedEntries files2) :=
    insFold_perm (parsedEntries files2) [] (by simpa using hkeys2)
  have hs1 : (insFold [] (parsedEntries files1)).Pairwise entryLt := by
    have hx := insFold_sorted (parsedEntries files1) [] (by simp)
    rw [List.pairwise_map] at hx
    exact hx
  have hs2 : (insFold [] (parsedEntries files2)).Pairwise entryLt := by
    have hx := insFold_sorted (parsedEntries files2) [] (by simp)
    rw [List.pairwise_map] at hx
    exact hx
  have hfoldEq : insFold [] (parsedEntries files1) = insFold [] (parsedEntries files2) :=
    List.eq_of_perm_of_sorted (hperm1.trans (hpe.trans hperm2.symm)) hs1 hs2
  have hcnt : (parsedEntries files1).countP (fun e => e.2.is_dictionary) =
      (parsedEntries files2).countP (fun e => e.2.is_dictionary) :=
    hpe.countP_eq _
  have hdisc2 : discover env.metadataPath files2 = Except.ok (m, d) := by
    rw [discover, h2, ← hfoldEq, hm1.1, ← hcnt, hm1.2]
  refine ⟨hdisc2, ?_, ?_, ?_⟩
  · simp only [loadStoredObjects]
    rw [hdisc2, hm]
  · exact filter_keys_sorted m _ (discover_sorted env.metadataPath files1 m d hm)
  · exact filter_keys_sorted m _ (discover_sorted env.metadataPath files1 m d hm)

/-- The enumeration as a shuffled filesystem might deliver it. -/
def exFilesShuffled : List (String × ParseOutcome) :=
  [("b.sql", Except.ok (some exTableQuery)), ("a.sql", Except.ok (some exDictQuery))]

/-- The same files delivered in sorted order. -/
def exFilesSorted : List (String × ParseOutcome) :=
  [("a.sql", Except.ok (some exDictQuery)), ("b.sql", Except.ok (some exTableQuery))]

/-- Witness for C4: the concrete shuffled and sorted enumerations produce
the identical sorted discovery map, dictionary count and bootstrap run. -/
theorem C4_witness :
    discover exEnv.metadataPath exFilesSorted =
      Except.ok ([("a.sql", exDictQuery), ("b.sql", exTableQuery)], 1) ∧
    loadStoredObjects exEnv exFilesSorted [] [] =
      loadStoredObjects exEnv exFilesShuffled [] [] := by
  obtain ⟨h1, h2, h3, h4⟩ := C4_deterministic_lexicographic_bootstrap exEnv
    exFilesShuffled exFilesSorted
    [("a.sql", exDictQuery), ("b.sql", exTableQuery)] 1 [] []
    (List.Perm.swap ("a.sql", Except.ok (some exDictQuery))
      ("b.sql", Except.ok (some exTableQuery)) [])
    (by decide)
    (by
      intro p hp c
      rcases List.mem_cons.mp hp with h | h
      · subst h; simp
      · rcases List.mem_cons.mp h with h2 | h2
        · subst h2; simp
        · simp at h2)
    rfl
  exact ⟨h1, h2⟩

end DB
